import Mathlib
/-!
Verification development for a terminal chess session program (src/main.py).

The program keeps a python-chess Board, a move-history list, a game mode,
an optional engine handle and a piece display mode.  We embed the session
layer shallowly:

- a Python string is modelled as the list of its character code points
  (List Nat), with the str.strip / str.lower / str.split operations the
  session loop uses;
- the python-chess Board carries its move stack, and popping restores the
  previous position exactly, so the board component of the session state is
  modelled by the move stack itself (the position is a function of the
  stack, replayed from the standard initial position);
- the rules oracle (python-chess parse_san and legal move generation) is
  modelled both abstractly, as a structure of functions, and concretely by a
  fully executable model of the standard chess rules mirroring the
  python-chess semantics of Board.parse_san, Board.legal_moves, Board.push
  and the game-over tests;
- the engine subprocess is external: its answer to one play request is an
  oracle value (none models an exception raised by engine.play, some none a
  result whose move field is None, some (some m) a proposed move m);
- console output is modelled as a list of message events, one constructor
  per distinct print in the source.
-/
/-! ## Python string model -/
/-- Code points of a Lean string literal, used to write Python string
literals from the source as values of the model type List Nat. -/
def pyS (s : String) : List Nat := s.data.map Char.toNat
/-- Python str whitespace test, restricted to the ASCII whitespace
characters that str.strip and str.split treat as separators. -/
def isWsNat (c : Nat) : Bool :=
  decide (c = 32 ∨ c = 9 ∨ c = 10 ∨ c = 13 ∨ c = 11 ∨ c = 12)
/-- Per-character model of Python str.lower restricted to ASCII, which is
all the session loop compares against. -/
def toLowerNat (c : Nat) : Nat := if 65 ≤ c ∧ c ≤ 90 then c + 32 else c
/-- Model of str.lower. -/
def pyLower (l : List Nat) : List Nat := l.map toLowerNat
/-- Model of str.strip with no argument: remove leading and trailing
whitespace. -/
def pyStrip (l : List Nat) : List Nat :=
  ((l.dropWhile isWsNat).reverse.dropWhile isWsNat).reverse
/-- Accumulator for pySplit: current (reversed) token and remaining input. -/
def pySplitAux : List Nat → List Nat → List (List Nat)
  | [], cur => if cur.isEmpty then [] else [cur.reverse]
  | c :: rest, cur =>
    if isWsNat c then
      if cur.isEmpty then pySplitAux rest [] else cur.reverse :: pySplitAux rest []
    else pySplitAux rest (c :: cur)
/-- Model of str.split with no argument: split on whitespace runs, never
producing empty tokens. -/
def pySplit (l : List Nat) : List (List Nat) := pySplitAux l []
/-- Model of str.startswith. -/
def pyStartsWith : List Nat → List Nat → Bool
  | [], _ => true
  | _ :: _, [] => false
  | a :: pre, b :: l => a = b && pyStartsWith pre l
/-! ## Chess rules model

The program delegates legality, SAN parsing and game-over tests to the
python-chess library.  The definitions below are an executable model of the
standard chess rules as python-chess implements them, extensionally: piece
type codes follow python-chess (pawn 1, knight 2, bishop 3, rook 4, queen 5,
king 6), a square is rank * 8 + file as in chess.square, and colours are
Bool with true = White. -/
/-- A move value as python-chess builds it: source square, target square and
optional promotion piece type. -/
structure ChessMove where
  fromSq : Nat
  toSq : Nat
  promo : Option Nat
deriving DecidableEq
/-- A chess position: 64 optional (colour, piece type) entries indexed by
square, the side to move, the four castling rights, the en passant target
square, and the half-move and full-move counters, exactly the state
python-chess keeps for one position. -/
structure ChessPos where
  board : List (Option (Bool × Nat))
  turn : Bool
  castleWK : Bool
  castleWQ : Bool
  castleBK : Bool
  castleBQ : Bool
  ep : Option Nat
  halfmove : Nat
  fullmove : Nat
deriving DecidableEq
def fileOf (sq : Nat) : Nat := sq % 8
def rankOf (sq : Nat) : Nat := sq / 8
/-- Square for integer file and rank coordinates, none when off the board. -/
def sqAt (f r : Int) : Option Nat :=
  if 0 ≤ f ∧ f < 8 ∧ 0 ≤ r ∧ r < 8 then some (r.toNat * 8 + f.toNat) else none
def pieceAt (p : ChessPos) (sq : Nat) : Option (Bool × Nat) :=
  p.board.getD sq none
def occupiedBy (p : ChessPos) (c : Bool) (sq : Nat) : Bool :=
  match pieceAt p sq with
  | some q => q.1 = c
  | none => false
def rookDirs : List (Int × Int) := [(1, 0), (-1, 0), (0, 1), (0, -1)]
def bishopDirs : List (Int × Int) := [(1, 1), (1, -1), (-1, 1), (-1, -1)]
def knightDeltas : List (Int × Int) :=
  [(1, 2), (2, 1), (2, -1), (1, -2), (-1, -2), (-2, -1), (-2, 1), (-1, 2)]
def kingDeltas : List (Int × Int) := rookDirs ++ bishopDirs
/-- Squares a sliding piece of colour c can move to along one direction:
stop at the edge, at the first own piece (excluded) or the first enemy piece
(included). -/
def slideAux (p : ChessPos) (c : Bool) : Nat → Int → Int → Int → Int → List Nat
  | 0, _, _, _, _ => []
  | fuel + 1, f, r, df, dr =>
    match sqAt (f + df) (r + dr) with
    | none => []
    | some sq =>
      match pieceAt p sq with
      | none => sq :: slideAux p c fuel (f + df) (r + dr) df dr
      | some q => if q.1 = c then [] else [sq]
def slideTargets (p : ChessPos) (c : Bool) (sq : Nat) (dirs : List (Int × Int)) :
    List Nat :=
  dirs.foldr (fun d acc =>
    slideAux p c 7 (fileOf sq : Nat) (rankOf sq : Nat) d.1 d.2 ++ acc) []
/-- Squares attacked along one direction: every empty square up to and
including the first occupied square, whoever owns it. -/
def attackRayAux (p : ChessPos) : Nat → Int → Int → Int → Int → List Nat
  | 0, _, _, _, _ => []
  | fuel + 1, f, r, df, dr =>
    match sqAt (f + df) (r + dr) with
    | none => []
    | some sq =>
      match pieceAt p sq with
      | none => sq :: attackRayAux p fuel (f + df) (r + dr) df dr
      | some _ => [sq]
def attackTargets (p : ChessPos) (sq : Nat) (dirs : List (Int × Int)) : List Nat :=
  dirs.foldr (fun d acc =>
    attackRayAux p 7 (fileOf sq : Nat) (rankOf sq : Nat) d.1 d.2 ++ acc) []
def leaperTargets (sq : Nat) (deltas : List (Int × Int)) : List Nat :=
  deltas.filterMap fun d => sqAt ((fileOf sq : Nat) + d.1) ((rankOf sq : Nat) + d.2)
def pawnAttackTargets (c : Bool) (sq : Nat) : List Nat :=
  let dr : Int := if c then 1 else -1
  [((1 : Int), dr), ((-1 : Int), dr)].filterMap fun d =>
    sqAt ((fileOf sq : Nat) + d.1) ((rankOf sq : Nat) + d.2)
/-- Does some piece of colour c attack the target square. -/
def attacksSq (p : ChessPos) (c : Bool) (target : Nat) : Bool :=
  (List.range 64).any fun sq =>
    match pieceAt p sq with
    | some (pc, pt) =>
      pc = c &&
        (if pt = 1 then (pawnAttackTargets c sq).contains target
         else if pt = 2 then (leaperTargets sq knightDeltas).contains target
         else if pt = 6 then (leaperTargets sq kingDeltas).contains target
         else if pt = 3 then (attackTargets p sq bishopDirs).contains target
         else if pt = 4 then (attackTargets p sq rookDirs).contains target
         else (attackTargets p sq (rookDirs ++ bishopDirs)).contains target)
    | none => false
/-- Pawn promotion fan-out: a pawn move to the last rank yields the four
promotion moves python-chess generates, any other move a single move. -/
def pawnMoveFan (c : Bool) (sq t : Nat) : List ChessMove :=
  if rankOf t = (if c then 7 else 0) then
    [⟨sq, t, some 5⟩, ⟨sq, t, some 4⟩, ⟨sq, t, some 3⟩, ⟨sq, t, some 2⟩]
  else [⟨sq, t, none⟩]
/-- Pseudo-legal pawn moves from one square: single and double pushes,
captures, en passant captures, with promotions fanned out. -/
def pawnMoves (p : ChessPos) (c : Bool) (sq : Nat) : List ChessMove :=
  let dr : Int := if c then 1 else -1
  let f : Int := (fileOf sq : Nat)
  let r : Int := (rankOf sq : Nat)
  let startRank : Int := if c then 1 else 6
  let pushes :=
    match sqAt f (r + dr) with
    | some t1 =>
      if pieceAt p t1 = none then
        pawnMoveFan c sq t1 ++
          (if r = startRank then
            match sqAt f (r + 2 * dr) with
            | some t2 => if pieceAt p t2 = none then [⟨sq, t2, none⟩] else []
            | none => []
          else [])
      else []
    | none => []
  let caps := [(1 : Int), (-1 : Int)].foldr (fun df acc =>
    (match sqAt (f + df) (r + dr) with
     | some t =>
       match pieceAt p t with
       | some q => if q.1 = c then [] else pawnMoveFan c sq t
       | none => if p.ep = some t then [⟨sq, t, none⟩] else []
     | none => []) ++ acc) []
  pushes ++ caps
/-- Pseudo-legal moves of the piece standing on one square (castling moves
are generated separately, as in python-chess). -/
def pieceMovesAt (p : ChessPos) (sq : Nat) : List ChessMove :=
  match pieceAt p sq with
  | none => []
  | some (c, pt) =>
    if c ≠ p.turn then []
    else if pt = 1 then pawnMoves p c sq
    else if pt = 2 then
      ((leaperTargets sq knightDeltas).filter fun t => !occupiedBy p c t).map
        fun t => ⟨sq, t, none⟩
    else if pt = 6 then
      ((leaperTargets sq kingDeltas).filter fun t => !occupiedBy p c t).map
        fun t => ⟨sq, t, none⟩
    else if pt = 3 then (slideTargets p c sq bishopDirs).map fun t => ⟨sq, t, none⟩
    else if pt = 4 then (slideTargets p c sq rookDirs).map fun t => ⟨sq, t, none⟩
    else (slideTargets p c sq (rookDirs ++ bishopDirs)).map fun t => ⟨sq, t, none⟩
def pseudoMoves (p : ChessPos) : List ChessMove :=
  (List.range 64).foldr (fun sq acc => pieceMovesAt p sq ++ acc) []
/-- Result of pushing a move, mirroring python-chess Board.push for the
moves the generator produces: capture removal including en passant, piece
transfer with promotion, rook transfer for castling, castling-right updates
from touched squares, en passant target on double pushes, half-move and
full-move counter updates, and the side to move flipped. -/
def applyMove (p : ChessPos) (m : ChessMove) : ChessPos :=
  match pieceAt p m.fromSq with
  | none => { p with turn := !p.turn, ep := none }
  | some (c, pt) =>
    let fFrom := fileOf m.fromSq
    let fTo := fileOf m.toSq
    let rFrom := rankOf m.fromSq
    let rTo := rankOf m.toSq
    let isEp := pt = 1 && p.ep = some m.toSq && fFrom ≠ fTo && pieceAt p m.toSq = none
    let isCapture := (pieceAt p m.toSq).isSome || isEp
    let b1 := p.board.set m.fromSq none
    let b2 := if isEp then b1.set (if c then m.toSq - 8 else m.toSq + 8) none else b1
    let b3 := b2.set m.toSq (some (c, m.promo.getD pt))
    let b4 :=
      if pt = 6 && fTo = fFrom + 2 then
        (b3.set (m.toSq + 1) none).set (m.toSq - 1) (some (c, 4))
      else if pt = 6 && fFrom = fTo + 2 then
        (b3.set (m.toSq - 2) none).set (m.toSq + 1) (some (c, 4))
      else b3
    { board := b4
      turn := !p.turn
      castleWK := p.castleWK && !(c && pt = 6) && m.fromSq ≠ 7 && m.toSq ≠ 7
      castleWQ := p.castleWQ && !(c && pt = 6) && m.fromSq ≠ 0 && m.toSq ≠ 0
      castleBK := p.castleBK && !(!c && pt = 6) && m.fromSq ≠ 63 && m.toSq ≠ 63
      castleBQ := p.castleBQ && !(!c && pt = 6) && m.fromSq ≠ 56 && m.toSq ≠ 56
      ep :=
        if pt = 1 && rTo = rFrom + 2 then some (m.fromSq + 8)
        else if pt = 1 && rFrom = rTo + 2 then some (m.fromSq - 8)
        else none
      halfmove := if pt = 1 || isCapture then 0 else p.halfmove + 1
      fullmove := if p.turn then p.fullmove else p.fullmove + 1 }
def kingSq (p : ChessPos) (c : Bool) : Nat :=
  ((List.range 64).find? fun sq => pieceAt p sq = some (c, 6)).getD 64
def inCheck (p : ChessPos) : Bool :=
  attacksSq p (!p.turn) (kingSq p p.turn)
/-- Does this move leave the mover in check (python-chess is_into_check). -/
def intoCheck (p : ChessPos) (m : ChessMove) : Bool :=
  let p2 := applyMove p m
  attacksSq p2 (!p.turn) (kingSq p2 p.turn)
/-- Legal castling moves, as king-from to king-to moves: the right must be
live with king and rook on their home squares, the path between them empty,
and the king path free of enemy attacks (python-chess
generate_castling_moves). -/
def castlingMoves (p : ChessPos) : List ChessMove :=
  let c := p.turn
  let base : Nat := if c then 0 else 56
  let enemy := !c
  let emptyAt := fun (sq : Nat) => pieceAt p sq = none
  let safe := fun (sq : Nat) => !attacksSq p enemy sq
  let kingHome := pieceAt p (base + 4) = some (c, 6)
  let ks := (if c then p.castleWK else p.castleBK) && kingHome &&
    pieceAt p (base + 7) = some (c, 4) &&
    emptyAt (base + 5) && emptyAt (base + 6) &&
    safe (base + 4) && safe (base + 5) && safe (base + 6)
  let qs := (if c then p.castleWQ else p.castleBQ) && kingHome &&
    pieceAt p (base + 0) = some (c, 4) &&
    emptyAt (base + 1) && emptyAt (base + 2) && emptyAt (base + 3) &&
    safe (base + 4) && safe (base + 3) && safe (base + 2)
  (if ks then [⟨base + 4, base + 6, none⟩] else []) ++
    (if qs then [⟨base + 4, base + 2, none⟩] else [])
/-- Legal moves of a position: pseudo-legal moves that do not leave the own
king attacked, plus the legal castling moves (python-chess
generate_legal_moves). -/
def legal_moves (p : ChessPos) : List ChessMove :=
  (pseudoMoves p).filter (fun m => !intoCheck p m) ++ castlingMoves p
def backRank (c : Bool) : List (Option (Bool × Nat)) :=
  [some (c, 4), some (c, 2), some (c, 3), some (c, 5),
   some (c, 6), some (c, 3), some (c, 2), some (c, 4)]
/-- The standard initial position chess.Board() constructs. -/
def startPos : ChessPos :=
  { board := backRank true ++ List.replicate 8 (some (true, 1)) ++
      List.replicate 32 none ++ List.replicate 8 (some (false, 1)) ++
      backRank false
    turn := true
    castleWK := true
    castleWQ := true
    castleBK := true
    castleBQ := true
    ep := none
    halfmove := 0
    fullmove := 1 }
/-- The position reached by replaying a move stack from the initial
position: this is what a python-chess Board with that move_stack holds. -/
def posOf (stack : List ChessMove) : ChessPos :=
  stack.foldl applyMove startPos
/-! ## SAN parsing (python-chess Board.parse_san)

parse_san matches the SAN regular expression
([NBKRQ])? ([a-h])? ([1-8])? [-x]? ([a-h][1-8]) (=?[nbrqkNBRQK])? [+#]?
anchored at both ends, handles the castling strings first, then filters the
generated legal moves by target square, source file and rank, piece type
(pawn when no piece letter is given, and then also source file = target
file unless a source file is written) and promotion, and succeeds only when
exactly one legal move matches.  Any failure raises a ValueError subclass
in the source; the model returns none for every such case. -/
def isFileChar (c : Nat) : Bool := 97 ≤ c && c ≤ 104
def isRankChar (c : Nat) : Bool := 49 ≤ c && c ≤ 56
def isPieceChar (c : Nat) : Bool :=
  c = 78 || c = 66 || c = 75 || c = 82 || c = 81
def pieceCharVal (c : Nat) : Nat :=
  if c = 78 then 2 else if c = 66 then 3 else if c = 75 then 6
  else if c = 82 then 4 else 5
def isPromoChar (c : Nat) : Bool :=
  let l := toLowerNat c
  l = 110 || l = 98 || l = 114 || l = 113 || l = 107
def promoCharVal (c : Nat) : Nat :=
  let l := toLowerNat c
  if l = 110 then 2 else if l = 98 then 3 else if l = 114 then 4
  else if l = 113 then 5 else 6
/-- Parse the optional prefix groups (piece letter, source file, source
rank, separator) of a SAN string; the alphabets of the four groups are
disjoint, so the greedy left-to-right read matches the regular
expression. -/
def sanPre (pre : List Nat) : Option (Option Nat × Option Nat × Option Nat) :=
  let (pc, rest1) :=
    match pre with
    | c :: rest => if isPieceChar c then (some (pieceCharVal c), rest) else (none, pre)
    | [] => (none, pre)
  let (ff, rest2) :=
    match rest1 with
    | c :: rest => if isFileChar c then (some (c - 97), rest) else (none, rest1)
    | [] => (none, rest1)
  let (fr, rest3) :=
    match rest2 with
    | c :: rest => if isRankChar c then (some (c - 49), rest) else (none, rest2)
    | [] => (none, rest2)
  let rest4 :=
    match rest3 with
    | c :: rest => if c = 45 || c = 120 then rest else rest3
    | [] => rest3
  match rest4 with
  | [] => some (pc, ff, fr)
  | _ :: _ => none
/-- Decompose a SAN string into the regular-expression groups: piece type,
source file, source rank, target square and promotion type.  The optional
check suffix and promotion suffix are read from the right, then the target
square, then the prefix groups. -/
def sanGroups (s : List Nat) :
    Option (Option Nat × Option Nat × Option Nat × Nat × Option Nat) :=
  let s1 :=
    match s.getLast? with
    | some c => if c = 43 || c = 35 then s.dropLast else s
    | none => s
  let pr :=
    match s1.getLast? with
    | some c =>
      if isPromoChar c then
        let s2 := s1.dropLast
        (some (promoCharVal c),
          match s2.getLast? with
          | some e => if e = 61 then s2.dropLast else s2
          | none => s2)
      else (none, s1)
    | none => (none, s1)
  match pr.2.reverse with
  | rk :: fl :: rest =>
    if isRankChar rk && isFileChar fl then
      match sanPre rest.reverse with
      | some (pc, ff, fr) => some (pc, ff, fr, (rk - 49) * 8 + (fl - 97), pr.1)
      | none => none
    else none
  | _ => none
def kingsideStrings : List (List Nat) :=
  [pyS "O-O", pyS "O-O+", pyS "O-O#", pyS "0-0", pyS "0-0+", pyS "0-0#"]
def queensideStrings : List (List Nat) :=
  [pyS "O-O-O", pyS "O-O-O+", pyS "O-O-O#", pyS "0-0-0", pyS "0-0-0+", pyS "0-0-0#"]
/-- Does a legal move satisfy the SAN group constraints in this position. -/
def sanMatches (p : ChessPos) (pc ff fr : Option Nat) (toSq : Nat)
    (promo : Option Nat) (m : ChessMove) : Bool :=
  m.toSq = toSq &&
  (match ff with | some f => fileOf m.fromSq = f | none => true) &&
  (match fr with | some r => rankOf m.fromSq = r | none => true) &&
  (match pieceAt p m.fromSq with
   | some q =>
     match pc with
     | some t => q.2 = t
     | none =>
       q.2 = 1 && (match ff with
                   | some _ => true
                   | none => fileOf m.fromSq = fileOf toSq)
   | none => false) &&
  m.promo = promo
/-- Model of python-chess Board.parse_san: castling strings first, then the
regular-expression groups, then the unique legal move matching them; none
models every ValueError (invalid, illegal or ambiguous SAN). -/
def parse_san (p : ChessPos) (s : List Nat) : Option ChessMove :=
  if s ∈ kingsideStrings then
    (castlingMoves p).find? fun m => fileOf m.fromSq < fileOf m.toSq
  else if s ∈ queensideStrings then
    (castlingMoves p).find? fun m => fileOf m.toSq < fileOf m.fromSq
  else
    match sanGroups s with
    | none => none
    | some (pc, ff, fr, toSq, promo) =>
      if occupiedBy p p.turn toSq then none
      else
        match (legal_moves p).filter (sanMatches p pc ff fr toSq promo) with
        | [m] => some m
        | _ => none
/-! ## Game-over tests (python-chess Board.is_game_over) -/
def isCheckmatePos (p : ChessPos) : Bool :=
  inCheck p && (legal_moves p).isEmpty
def isStalematePos (p : ChessPos) : Bool :=
  !inCheck p && (legal_moves p).isEmpty
def piecesOf (p : ChessPos) (c : Bool) : List Nat :=
  (List.range 64).filterMap fun sq =>
    match pieceAt p sq with
    | some (pc, pt) => if pc = c then some pt else none
    | none => none
/-- Model of python-chess has_insufficient_material for one colour. -/
def hasInsufficientMaterial (p : ChessPos) (c : Bool) : Bool :=
  let mine := piecesOf p c
  if mine.any (fun t => t = 1 || t = 4 || t = 5) then false
  else if mine.contains 2 then
    mine.length ≤ 2 &&
      (piecesOf p (!c)).all (fun t => t = 6 || t = 5)
  else if mine.contains 3 then
    let bishSqs := (List.range 64).filterMap fun sq =>
      match pieceAt p sq with
      | some (_, pt) => if pt = 3 then some sq else none
      | none => none
    let dark := fun (sq : Nat) => (fileOf sq + rankOf sq) % 2 = 0
    (bishSqs.all (fun sq => dark sq) || bishSqs.all (fun sq => !dark sq)) &&
      !((List.range 64).any fun sq =>
        match pieceAt p sq with
        | some (_, pt) => pt = 1 || pt = 2
        | none => false)
  else true
def isInsufficientPos (p : ChessPos) : Bool :=
  hasInsufficientMaterial p true && hasInsufficientMaterial p false
def isSeventyFivePos (p : ChessPos) : Bool :=
  150 ≤ p.halfmove && !(legal_moves p).isEmpty
/-- Is there a legal en passant capture, used to normalise the repetition
key exactly as the python-chess transposition key does. -/
def hasLegalEp (p : ChessPos) : Bool :=
  match p.ep with
  | none => false
  | some t =>
    (legal_moves p).any fun m =>
      m.toSq = t &&
      (match pieceAt p m.fromSq with
       | some q => q.2 = 1
       | none => false) &&
      fileOf m.fromSq ≠ fileOf t
/-- Transposition key of a position: piece placement, side to move,
castling rights, and the en passant square only when a legal en passant
capture exists. -/
def posKey (p : ChessPos) :
    List (Option (Bool × Nat)) × Bool × Bool × Bool × Bool × Bool × Option Nat :=
  (p.board, p.turn, p.castleWK, p.castleWQ, p.castleBK, p.castleBQ,
    if hasLegalEp p then p.ep else none)
/-- Model of fivefold repetition over a game stack: the key of the current
position occurs at least five times among the positions of the game. -/
def isFivefoldStack (stack : List ChessMove) : Bool :=
  let ps := (List.range (stack.length + 1)).map fun k => posOf (stack.take k)
  let key := posKey (posOf stack)
  5 ≤ (ps.filter fun q => posKey q == key).length
/-- Model of Board.is_game_over with default arguments: checkmate,
insufficient material, stalemate, the automatic seventy-five-move rule or
automatic fivefold repetition. -/
def isGameOverStack (stack : List ChessMove) : Bool :=
  let p := posOf stack
  isCheckmatePos p || isInsufficientPos p || isStalematePos p ||
    isSeventyFivePos p || isFivefoldStack stack
/-! ## Session state (src/main.py, class ChessGame)

GameState models the mutable attributes of a ChessGame object: the board
(as its move stack), move_history, game_mode and piece_mode (Python
strings), difficulty, and whether an engine handle is held (self.engine is
None or a live handle; only its truthiness is ever branched on). -/
/-- Console message events, one constructor per distinct console.print in
the source; the string payloads of the two failure messages of make_move
are the distinct literals at lines 187 and 190 of src/main.py. -/
inductive ConsoleMsg where
  | illegalMoveMsg
  | invalidSanMsg
  | computerErrMsg
  | engineNotFoundMsg
  | defaultPvpMsg
  | lastUndoneMsg
  | noUndoMsg
  | switchedModeMsg (mode : List Nat)
  | invalidPieceModeMsg
  | helpMsg
  | pressEnterMsg
  | checkmateMsg (winner : Bool)
  | stalemateMsg
  | insufficientMsg
  | fiftyMsg
  | repetitionMsg
deriving DecidableEq
/-- The state a ChessGame object carries between calls. -/
structure GameState where
  board : List ChessMove
  moveHistory : List ChessMove
  gameMode : List Nat
  difficulty : Nat
  engine : Bool
  pieceMode : List Nat
deriving DecidableEq
/-- The rules oracle the session delegates to: python-chess parse_san and
legal_moves as functions of the move stack of the board.  Claims about
make_move that do not depend on the chess rules are proved for every
oracle; realOracle below instantiates it with the chess model. -/
structure RulesOracle where
  parseSan : List ChessMove → List Nat → Option ChessMove
  legalMoves : List ChessMove → List ChessMove
/-- The python-chess implementation of the oracle, acting on the position
replayed from the move stack. -/
def realOracle : RulesOracle :=
  { parseSan := fun stack s => parse_san (posOf stack) s
    legalMoves := fun stack => legal_moves (posOf stack) }
/-- Embedding of ChessGame.make_move (src/main.py lines 178-191): parse the
SAN text; on a ValueError print the invalid-notation message and return
False; on a parsed move that is in legal_moves, append it to move_history,
push it onto the board and return True; otherwise print the illegal-move
message and return False. -/
def make_move (o : RulesOracle) (g : GameState) (sanText : List Nat) :
    GameState × Bool × List ConsoleMsg :=
  match o.parseSan g.board sanText with
  | some m =>
    if m ∈ o.legalMoves g.board then
      ({ g with moveHistory := g.moveHistory ++ [m], board := g.board ++ [m] },
        true, [])
    else (g, false, [ConsoleMsg.illegalMoveMsg])
  | none => (g, false, [ConsoleMsg.invalidSanMsg])
/-- Embedding of ChessGame.computer_move (src/main.py lines 193-204).  The
engine answer to one play request is an oracle value: none models an
exception raised by engine.play, some none a result whose move field is
None (board.push(None) then raises before mutating, and the exception is
caught), some (some m) a proposed move.  Note the source pushes the engine
move onto the board but never appends it to move_history. -/
def computer_move (g : GameState) (ans : Option (Option ChessMove)) :
    GameState × Option ChessMove × List ConsoleMsg :=
  if g.gameMode ≠ pyS "pvc" ∨ g.engine = false then (g, none, [])
  else
    match ans with
    | none => (g, none, [ConsoleMsg.computerErrMsg])
    | some none => (g, none, [ConsoleMsg.computerErrMsg])
    | some (some m) => ({ g with board := g.board ++ [m] }, some m, [])
/-- Embedding of ChessGame.undo_move (src/main.py lines 279-286): when
move_history is non-empty, pop the board first (board.pop raises IndexError
on an empty move stack, modelled by none) and then move_history; otherwise
print the nothing-to-undo notice. -/
def undo_move (g : GameState) : Option (GameState × List ConsoleMsg) :=
  if g.moveHistory = [] then some (g, [ConsoleMsg.noUndoMsg])
  else if g.board = [] then none
  else
    some ({ g with board := g.board.dropLast, moveHistory := g.moveHistory.dropLast },
      [ConsoleMsg.lastUndoneMsg])
/-- Embedding of ChessGame.setup_stockfish (src/main.py lines 120-137): try
each candidate path; launching and configuring an engine is external, so
one attempt is an oracle Bool (false models any exception, which the
source catches and skips).  When every path fails, print the two notices
and set game_mode to pvp; launching never touches board or history. -/
def setup_stockfish (launch : List Nat → Bool) :
    List (List Nat) → GameState → GameState × List ConsoleMsg
  | [], g =>
    ({ g with gameMode := pyS "pvp" },
      [ConsoleMsg.engineNotFoundMsg, ConsoleMsg.defaultPvpMsg])
  | path :: rest, g =>
    if launch path then ({ g with engine := true }, [])
    else setup_stockfish launch rest g
/-- Embedding of ChessGame.__init__ (src/main.py lines 107-118): fresh
board, empty history, unicode piece mode, no engine; setup_stockfish runs
before __init__ returns exactly when the mode is pvc, hence before the
play loop issues its first prompt. -/
def initGame (mode : List Nat) (diff : Nat) (launch : List Nat → Bool)
    (paths : List (List Nat)) : GameState × List ConsoleMsg :=
  let g : GameState :=
    { board := [], moveHistory := [], gameMode := mode, difficulty := diff,
      engine := false, pieceMode := pyS "unicode" }
  if mode = pyS "pvc" then setup_stockfish launch paths g else (g, [])
/-- Embedding of the pieces-command branch of ChessGame.play (src/main.py
lines 246-253): the mode token is accepted exactly when it is unicode or
letters. -/
def pieces_cmd (g : GameState) (mode : List Nat) : GameState × List ConsoleMsg :=
  if mode = pyS "unicode" ∨ mode = pyS "letters" then
    ({ g with pieceMode := mode }, [ConsoleMsg.switchedModeMsg mode])
  else (g, [ConsoleMsg.invalidPieceModeMsg])
/-- Embedding of one input-handling pass of the ChessGame.play loop body
(src/main.py lines 234-259): the raw input is stripped, commands are
matched against its lowercase form, the pieces branch takes token 1 of the
lowercased split (an IndexError, modelled by none, cannot occur because the
stripped input starts with a pieces-plus-space prefix and does not end in
whitespace), and any other input is passed to make_move with its original
case.  The Bool result is true when the loop breaks (quit/exit). -/
def stepInput (o : RulesOracle) (g : GameState) (raw : List Nat) :
    Option (GameState × Bool × List ConsoleMsg) :=
  let s := pyStrip raw
  let t := pyLower s
  if t = pyS "help" then some (g, false, [ConsoleMsg.helpMsg, ConsoleMsg.pressEnterMsg])
  else if t = pyS "quit" ∨ t = pyS "exit" then some (g, true, [])
  else if t = pyS "undo" then
    match undo_move g with
    | some r => some (r.1, false, r.2)
    | none => none
  else if pyStartsWith (pyS "pieces ") t then
    match pySplit t with
    | _ :: m :: _ =>
      let r := pieces_cmd g m
      some (r.1, false, r.2)
    | _ => none
  else
    let r := make_move o g s
    some (r.1, false, r.2.2)
/-- The terminal-condition oracle show_result queries: the five
python-chess predicates as functions of the board move stack. -/
structure TermOracle where
  isCheckmate : List ChessMove → Bool
  isStalemate : List ChessMove → Bool
  isInsufficient : List ChessMove → Bool
  isFiftyMoves : List ChessMove → Bool
  isRepetition : List ChessMove → Bool
/-- Embedding of ChessGame.show_result (src/main.py lines 288-300): the
five terminal conditions are tested in source order, and on checkmate the
declared winner is Black when the side to move is White and conversely. -/
def show_result (t : TermOracle) (g : GameState) : List ConsoleMsg :=
  if t.isCheckmate g.board then
    [ConsoleMsg.checkmateMsg (!(g.board.length % 2 = 0))]
  else if t.isStalemate g.board then [ConsoleMsg.stalemateMsg]
  else if t.isInsufficient g.board then [ConsoleMsg.insufficientMsg]
  else if t.isFiftyMoves g.board then [ConsoleMsg.fiftyMsg]
  else if t.isRepetition g.board then [ConsoleMsg.repetitionMsg]
  else []
/-- Side to move of a board with this move stack: White (true) after an
even number of applied moves, as board.turn is in python-chess. -/
def boardTurn (b : List ChessMove) : Bool := b.length % 2 = 0
/-- Run a list of SAN texts through make_move, stopping at the first
rejection; the Bool is true when every text was accepted. -/
def runMoves (o : RulesOracle) : GameState → List (List Nat) → GameState × Bool
  | g, [] => (g, true)
  | g, s :: rest =>
    let r := make_move o g s
    if r.2.1 then runMoves o r.1 rest else (r.1, false)
/-- Call undo_move n times, propagating the IndexError case. -/
def undoN : Nat → GameState → Option GameState
  | 0, g => some g
  | n + 1, g =>
    match undo_move g with
    | some r => undoN n r.1
    | none => none
/-- One transition of the play loop (src/main.py lines 211-259): the loop
runs only while board.is_game_over() is false; when the mode is pvc and the
side to move is Black it calls computer_move with some engine answer,
otherwise it reads a line and handles it. -/
inductive GameStep (o : RulesOracle) : GameState → GameState → Prop where
  | human (g : GameState) (raw : List Nat) (g2 : GameState) (q : Bool)
      (msgs : List ConsoleMsg) :
      isGameOverStack g.board = false →
      ¬(g.gameMode = pyS "pvc" ∧ boardTurn g.board = false) →
      stepInput o g raw = some (g2, q, msgs) → GameStep o g g2
  | engine (g : GameState) (ans : Option (Option ChessMove)) (g2 : GameState)
      (mv : Option ChessMove) (msgs : List ConsoleMsg) :
      isGameOverStack g.board = false →
      g.gameMode = pyS "pvc" → boardTurn g.board = false →
      computer_move g ans = (g2, mv, msgs) → GameStep o g g2
/-- Session states reachable from a given initial state through play-loop
transitions. -/
inductive GameReachable (o : RulesOracle) (g0 : GameState) : GameState → Prop where
  | refl : GameReachable o g0 g0
  | tail {g g2 : GameState} : GameReachable o g0 g → GameStep o g g2 →
      GameReachable o g0 g2

/-! ## Concrete states and oracles used by the witnesses -/

/-- A pvp session as built by ChessGame with default arguments. -/
def g0pvp : GameState := (initGame (pyS "pvp") 2 (fun _ => false) []).1

/-- The white king-pawn double push e2-e4 (squares 12 and 28). -/
def mvE4 : ChessMove := ⟨12, 28, none⟩

/-- The black king-pawn double push e7-e5 (squares 52 and 36). -/
def mvE5 : ChessMove := ⟨52, 36, none⟩

/-- The session state after the start-position input e4 is accepted. -/
def gAfterE4 : GameState :=
  { board := [mvE4], moveHistory := [mvE4], gameMode := pyS "pvp",
    difficulty := 2, engine := false, pieceMode := pyS "unicode" }

/-- A launch oracle whose first attempt succeeds. -/
def launchAlways : List Nat → Bool := fun _ => true

/-- A pvc session whose engine launch succeeded. -/
def gPvcStart : GameState :=
  (initGame (pyS "pvc") 2 launchAlways [pyS "stockfish"]).1

/-- The pvc session after the human input e4 is accepted. -/
def gPvc1 : GameState :=
  { board := [mvE4], moveHistory := [mvE4], gameMode := pyS "pvc",
    difficulty := 2, engine := true, pieceMode := pyS "unicode" }

/-- The pvc session after the engine answers e7-e5: the board carries two
moves while move_history still carries one. -/
def gPvcBug : GameState := { gPvc1 with board := [mvE4, mvE5] }

/-- A terminal oracle reporting every condition, used to exercise the
priority order of show_result. -/
def termAll : TermOracle :=
  { isCheckmate := fun _ => true, isStalemate := fun _ => true
    isInsufficient := fun _ => true, isFiftyMoves := fun _ => true
    isRepetition := fun _ => true }

/-- A terminal oracle reporting everything except checkmate. -/
def termNoCm : TermOracle := { termAll with isCheckmate := fun _ => false }

/-- A terminal oracle reporting only the draw conditions below stalemate. -/
def termIns : TermOracle := { termNoCm with isStalemate := fun _ => false }

/-- A terminal oracle reporting only fifty-move and repetition. -/
def termFifty : TermOracle := { termIns with isInsufficient := fun _ => false }

/-- A terminal oracle reporting only repetition. -/
def termRep : TermOracle := { termFifty with isFiftyMoves := fun _ => false }

/-- A terminal oracle reporting no condition. -/
def termNone : TermOracle := { termRep with isRepetition := fun _ => false }

/-! ## Lemmas about the Python string model -/

theorem toLowerNat_isWs (c : Nat) : isWsNat (toLowerNat c) = isWsNat c := by
  unfold toLowerNat isWsNat
  split
  · next h => exact decide_eq_decide.mpr (by omega)
  · rfl

theorem toLowerNat_idem (c : Nat) : toLowerNat (toLowerNat c) = toLowerNat c := by
  unfold toLowerNat
  split
  · split <;> omega
  · rfl

theorem pyLower_idem (l : List Nat) : pyLower (pyLower l) = pyLower l := by
  induction l with
  | nil => rfl
  | cons c rest ih =>
    simp only [pyLower, List.map_cons] at *
    rw [toLowerNat_idem]
    exact congrArg _ (by simpa [pyLower] using ih)

theorem pyLower_dropWhile (l : List Nat) :
    (pyLower l).dropWhile isWsNat = pyLower (l.dropWhile isWsNat) := by
  induction l with
  | nil => rfl
  | cons c rest ih =>
    simp only [pyLower, List.map_cons, List.dropWhile_cons]
    rw [toLowerNat_isWs]
    cases h : isWsNat c with
    | true => simpa [h, pyLower] using ih
    | false => simp [h, pyLower]

theorem pyLower_reverse (l : List Nat) :
    (pyLower l).reverse = pyLower l.reverse := by
  simp [pyLower, List.map_reverse]

theorem pyStrip_pyLower (l : List Nat) :
    pyStrip (pyLower l) = pyLower (pyStrip l) := by
  unfold pyStrip
  rw [pyLower_dropWhile, pyLower_reverse, pyLower_dropWhile, pyLower_reverse]

theorem lowerStrip_key (l : List Nat) :
    pyLower (pyStrip (pyLower l)) = pyLower (pyStrip l) := by
  rw [pyStrip_pyLower, pyLower_idem]

theorem pyStartsWith_exists {pre l : List Nat} (h : pyStartsWith pre l = true) :
    ∃ u, l = pre ++ u := by
  induction pre generalizing l with
  | nil => exact ⟨l, rfl⟩
  | cons a pre ih =>
    cases l with
    | nil => simp [pyStartsWith] at h
    | cons b l =>
      simp only [pyStartsWith, Bool.and_eq_true, decide_eq_true_eq] at h
      obtain ⟨rfl, h2⟩ := h
      obtain ⟨u, rfl⟩ := ih h2
      exact ⟨u, rfl⟩

theorem getLastD_indep : ∀ (u : List Nat) (d e : Nat), u ≠ [] →
    u.getLastD d = u.getLastD e := by
  intro u d e h
  cases u with
  | nil => exact absurd rfl h
  | cons y u => rw [List.getLastD_cons, List.getLastD_cons]

theorem getLastD_mem : ∀ (u : List Nat) (d : Nat), u ≠ [] → u.getLastD d ∈ u := by
  intro u
  induction u with
  | nil => intro d h; exact absurd rfl h
  | cons y u ih =>
    intro d _
    rw [List.getLastD_cons]
    by_cases hu : u = []
    · subst hu
      exact List.mem_singleton.mpr rfl
    · exact List.mem_cons_of_mem y (ih y hu)

theorem getLastD_append_right (a : List Nat) {u : List Nat} (d : Nat) (h : u ≠ []) :
    (a ++ u).getLastD d = u.getLastD d := by
  induction a generalizing d with
  | nil => rfl
  | cons x a ih =>
    rw [List.cons_append, List.getLastD_cons]
    rcases a with _ | ⟨y, a2⟩
    · simpa using getLastD_indep u x d h
    · exact (ih x).trans (getLastD_indep u x d h)

theorem head_dropWhile_not_ws (l : List Nat) (d : Nat) :
    l.dropWhile isWsNat = [] ∨ isWsNat ((l.dropWhile isWsNat).headD d) = false := by
  induction l with
  | nil => exact Or.inl rfl
  | cons c rest ih =>
    rw [List.dropWhile_cons]
    cases h : isWsNat c with
    | true => simpa [h] using ih
    | false => exact Or.inr (by simp [h])

theorem pyStrip_getLastD_not_ws (l : List Nat) (d : Nat) :
    pyStrip l = [] ∨ isWsNat ((pyStrip l).getLastD d) = false := by
  unfold pyStrip
  rcases head_dropWhile_not_ws (l.dropWhile isWsNat).reverse d with h | h
  · exact Or.inl (by simp [h])
  · rcases hd : (l.dropWhile isWsNat).reverse.dropWhile isWsNat with _ | ⟨y, u⟩
    · exact Or.inl (by simp [hd])
    · right
      rw [hd] at h
      have : (y :: u).reverse.getLastD d = y := by
        simp [List.getLastD_eq_getLast?, List.getLast?_reverse]
      simpa [this] using h

theorem pySplitAux_ne_nil_of_cur (l : List Nat) :
    ∀ cur : List Nat, cur ≠ [] → pySplitAux l cur ≠ [] := by
  induction l with
  | nil =>
    intro cur h
    simp [pySplitAux, h]
  | cons c rest ih =>
    intro cur h
    simp only [pySplitAux]
    split
    · simp [List.isEmpty_eq_true] at *
      simp [h]
    · exact ih (c :: cur) (by simp)

theorem pySplit_piecesPre (u : List Nat) :
    pySplit (pyS "pieces " ++ u) = pyS "pieces" :: pySplitAux u [] := rfl

theorem pySplitAux_ne_nil_of_mem (l : List Nat)
    (h : ∃ c ∈ l, isWsNat c = false) : pySplitAux l [] ≠ [] := by
  induction l with
  | nil => simp at h
  | cons c rest ih =>
    simp only [pySplitAux]
    split
    · next hws =>
      simp only [List.isEmpty_nil, if_true]
      apply ih
      obtain ⟨x, hx, hxw⟩ := h
      rcases List.mem_cons.mp hx with rfl | hx2
      · exact absurd hws (by simp [hxw])
      · exact ⟨x, hx2, hxw⟩
    · exact pySplitAux_ne_nil_of_cur rest [c] (by simp)

theorem pieces_split_two {t : List Nat}
    (hpre : pyStartsWith (pyS "pieces ") t = true)
    (hlast : isWsNat (t.getLastD 0) = false) :
    ∃ m rest, pySplit t = pyS "pieces" :: m :: rest := by
  obtain ⟨u, rfl⟩ := pyStartsWith_exists hpre
  have hu : u ≠ [] := by
    rintro rfl
    rw [List.append_nil] at hlast
    exact absurd hlast (by decide)
  have hlast2 : isWsNat (u.getLastD 0) = false := by
    rwa [getLastD_append_right _ 0 hu] at hlast
  have hne := pySplitAux_ne_nil_of_mem u
    ⟨u.getLastD 0, getLastD_mem u 0 hu, hlast2⟩
  cases hsp : pySplitAux u [] with
  | nil => exact absurd hsp hne
  | cons m rest => exact ⟨m, rest, by rw [pySplit_piecesPre, hsp]⟩

theorem pyS_help : pyS "help" = [104, 101, 108, 112] := rfl

theorem pyS_quit : pyS "quit" = [113, 117, 105, 116] := rfl

theorem pyS_exit : pyS "exit" = [101, 120, 105, 116] := rfl

theorem pyS_undo : pyS "undo" = [117, 110, 100, 111] := rfl

theorem pyS_piecesSp : pyS "pieces " = [112, 105, 101, 99, 101, 115, 32] := rfl

theorem pyLower_getLastD : ∀ (l : List Nat) (d : Nat),
    (pyLower l).getLastD (toLowerNat d) = toLowerNat (l.getLastD d) := by
  intro l
  induction l with
  | nil => intro d; rfl
  | cons c rest ih =>
    intro d
    simp only [pyLower, List.map_cons, List.getLastD_cons]
    exact ih c

theorem toLowerNat_zero : toLowerNat 0 = 0 := rfl

theorem piecesPre_ne (u : List Nat) :
    pyS "pieces " ++ u ≠ pyS "help" ∧ pyS "pieces " ++ u ≠ pyS "quit" ∧
    pyS "pieces " ++ u ≠ pyS "exit" ∧ pyS "pieces " ++ u ≠ pyS "undo" := by
  rw [pyS_piecesSp, pyS_help, pyS_quit, pyS_exit, pyS_undo]
  refine ⟨?_, ?_, ?_, ?_⟩ <;> intro h <;> simp at h

/-! ## Structural lemmas about the session operations -/

theorem castlingMoves_subset_legal {p : ChessPos} {m : ChessMove}
    (h : m ∈ castlingMoves p) : m ∈ legal_moves p :=
  List.mem_append_right _ h

/-- Every move parse_san returns is produced by the legal move generator:
the regular path returns the unique element of a filter of legal_moves, and
the castling path searches castlingMoves, which legal_moves includes. -/
theorem parse_san_mem {p : ChessPos} {s : List Nat} {m : ChessMove}
    (h : parse_san p s = some m) : m ∈ legal_moves p := by
  unfold parse_san at h
  split at h
  · exact castlingMoves_subset_legal (List.mem_of_find?_eq_some h)
  · split at h
    · exact castlingMoves_subset_legal (List.mem_of_find?_eq_some h)
    · split at h
      · exact absurd h (by simp)
      · split at h
        · exact absurd h (by simp)
        · split at h
          · next heq =>
            injection h with h2
            subst h2
            exact List.mem_of_mem_filter (heq ▸ List.mem_singleton.mpr rfl)
          · exact absurd h (by simp)

theorem make_move_rejected_frame (o : RulesOracle) (g : GameState) (s : List Nat)
    (h : (make_move o g s).2.1 = false) : (make_move o g s).1 = g := by
  unfold make_move at *
  cases hp : o.parseSan g.board s with
  | none => simp [hp]
  | some m =>
    by_cases hm : m ∈ o.legalMoves g.board
    · rw [hp] at h
      simp [hm] at h
    · simp [hp, hm]

theorem runMoves_true (o : RulesOracle) : ∀ (texts : List (List Nat))
    (g g2 : GameState), runMoves o g texts = (g2, true) →
    ∃ ms : List ChessMove, g2.board = g.board ++ ms ∧
      g2.moveHistory = g.moveHistory ++ ms ∧ ms.length = texts.length ∧
      g2.gameMode = g.gameMode ∧ g2.difficulty = g.difficulty ∧
      g2.engine = g.engine ∧ g2.pieceMode = g.pieceMode := by
  intro texts
  induction texts with
  | nil =>
    intro g g2 h
    unfold runMoves at h
    injection h with h1 h2
    subst h1
    exact ⟨[], by simp⟩
  | cons s rest ih =>
    intro g g2 h
    unfold runMoves at h
    cases hp : o.parseSan g.board s with
    | none => simp [make_move, hp] at h
    | some m =>
      by_cases hm : m ∈ o.legalMoves g.board
      · simp only [make_move, hp, if_pos hm] at h
        obtain ⟨ms, h1, h2, h3, h4, h5, h6, h7⟩ := ih _ _ h
        exact ⟨m :: ms, by simp_all, by simp_all, by simp [h3], h4, h5, h6, h7⟩
      · simp [make_move, hp, hm] at h

theorem undoN_all : ∀ (ms : List ChessMove) (g : GameState),
    g.board = ms → g.moveHistory = ms →
    undoN ms.length g =
      some (GameState.mk [] [] g.gameMode g.difficulty g.engine g.pieceMode) := by
  intro ms
  induction ms using List.reverseRecOn with
  | nil =>
    intro g hb hh
    cases g
    simp_all [undoN]
  | append_singleton xs x ih =>
    intro g hb hh
    have hl : (xs ++ [x]).length = xs.length + 1 := by simp
    rw [hl]
    have h1 : ¬g.moveHistory = [] := by simp [hh]
    have h2 : ¬g.board = [] := by simp [hb]
    show (match undo_move g with
          | some r => undoN xs.length r.1
          | none => none) = _
    rw [undo_move, if_neg h1, if_neg h2]
    have := ih { g with board := g.board.dropLast, moveHistory := g.moveHistory.dropLast }
      (by simp [hb]) (by simp [hh])
    simpa using this

theorem setup_stockfish_all_fail (launch : List Nat → Bool) :
    ∀ (paths : List (List Nat)) (g : GameState),
    (∀ p2 ∈ paths, launch p2 = false) →
    setup_stockfish launch paths g = ({ g with gameMode := pyS "pvp" },
      [ConsoleMsg.engineNotFoundMsg, ConsoleMsg.defaultPvpMsg]) := by
  intro paths
  induction paths with
  | nil => intro g _; rfl
  | cons p rest ih =>
    intro g h
    have hp : launch p = false := h p (List.mem_cons_self p rest)
    simp only [setup_stockfish, hp, Bool.false_eq_true, if_false]
    exact ih g fun q hq => h q (List.mem_cons_of_mem p hq)

theorem pieces_cmd_frame (g : GameState) (m : List Nat) :
    (pieces_cmd g m).1.board = g.board ∧
    (pieces_cmd g m).1.moveHistory = g.moveHistory ∧
    (pieces_cmd g m).1.gameMode = g.gameMode ∧
    (pieces_cmd g m).1.difficulty = g.difficulty ∧
    (pieces_cmd g m).1.engine = g.engine := by
  unfold pieces_cmd
  split <;> simp

theorem pyStartsWith_append_self : ∀ pre u : List Nat,
    pyStartsWith pre (pre ++ u) = true := by
  intro pre u
  induction pre with
  | nil => rfl
  | cons a pre ih => simp [pyStartsWith, ih]

theorem pyLower_strip_getLastD_not_ws (raw : List Nat)
    (hne : pyStrip raw ≠ []) :
    isWsNat ((pyLower (pyStrip raw)).getLastD 0) = false := by
  rcases pyStrip_getLastD_not_ws raw 0 with h0 | h0
  · exact absurd h0 hne
  · have hmap := pyLower_getLastD (pyStrip raw) 0
    rw [toLowerNat_zero] at hmap
    rw [hmap, toLowerNat_isWs]
    exact h0

theorem stepInput_pieces_shape (o : RulesOracle) (g : GameState) (raw : List Nat)
    (h : pyStartsWith (pyS "pieces ") (pyLower (pyStrip raw)) = true) :
    ∃ m rest, pySplit (pyLower (pyStrip raw)) = pyS "pieces" :: m :: rest ∧
      stepInput o g raw = some ((pieces_cmd g m).1, false, (pieces_cmd g m).2) := by
  obtain ⟨u, hu⟩ := pyStartsWith_exists h
  have hne : pyStrip raw ≠ [] := by
    intro h0
    rw [h0] at hu
    rw [pyS_piecesSp] at hu
    simp [pyLower] at hu
  obtain ⟨m, rest, hsp⟩ :=
    pieces_split_two h (pyLower_strip_getLastD_not_ws raw hne)
  refine ⟨m, rest, hsp, ?_⟩
  have hne1 : pyLower (pyStrip raw) ≠ pyS "help" := hu ▸ (piecesPre_ne u).1
  have hne2 : pyLower (pyStrip raw) ≠ pyS "quit" := hu ▸ (piecesPre_ne u).2.1
  have hne3 : pyLower (pyStrip raw) ≠ pyS "exit" := hu ▸ (piecesPre_ne u).2.2.1
  have hne4 : pyLower (pyStrip raw) ≠ pyS "undo" := hu ▸ (piecesPre_ne u).2.2.2
  simp only [stepInput, if_neg hne1, if_neg (not_or.mpr ⟨hne2, hne3⟩),
    if_neg hne4, h, if_true, hsp]

theorem stepInput_lower_eq (o : RulesOracle) (g : GameState) (raw : List Nat)
    (hcmd : pyLower (pyStrip raw) = pyS "help" ∨
      pyLower (pyStrip raw) = pyS "quit" ∨ pyLower (pyStrip raw) = pyS "exit" ∨
      pyLower (pyStrip raw) = pyS "undo" ∨
      pyStartsWith (pyS "pieces ") (pyLower (pyStrip raw)) = true) :
    stepInput o g (pyLower raw) = stepInput o g raw := by
  simp only [stepInput, pyStrip_pyLower raw, pyLower_idem (pyStrip raw)]
  rcases hcmd with h | h | h | h | h
  · simp [h]
  · simp [h, pyS_help, pyS_quit]
  · simp [h, pyS_help, pyS_exit]
  · simp [h, pyS_help, pyS_quit, pyS_exit, pyS_undo]
  · obtain ⟨u, hu⟩ := pyStartsWith_exists h
    rw [hu]
    have hsw := pyStartsWith_append_self (pyS "pieces ") u
    simp only [pyS_piecesSp, List.cons_append, List.nil_append] at hsw
    simp [pyS_piecesSp, pyS_help, pyS_quit, pyS_exit, pyS_undo, hsw]

/-! ## Claim theorems -/

/-- Claim C3: whenever computer_move fails to produce an applied move, that
is, returns None for the engine-move slot (engine absent, wrong mode, an
exception in engine.play, or an engine result without a move), the Board
State and the Move History Stack are left unchanged. -/
theorem c3_engine_failure_frame (g : GameState) (ans : Option (Option ChessMove))
    (h : (computer_move g ans).2.1 = none) : (computer_move g ans).1 = g := by
  unfold computer_move at *
  by_cases hg : g.gameMode ≠ pyS "pvc" ∨ g.engine = false
  · simp [hg]
  · cases ans with
    | none => simp [hg]
    | some a =>
      cases a with
      | none => simp [hg]
      | some m => simp [hg] at h

/-- Witness for C3: in a pvp session an engine-play exception leaves the
state untouched, with a None result. -/
theorem c3_engine_failure_frame_witness :
    (computer_move g0pvp none).2.1 = none ∧ (computer_move g0pvp none).1 = g0pvp :=
  ⟨rfl, c3_engine_failure_frame g0pvp none rfl⟩

/-- Claim C4: a session created in pvc mode whose every engine launch
attempt fails falls back to pvp mode inside the constructor (hence before
the first prompt of the play loop), holds no engine, and the fallback path
is total: every exception of an attempt is consumed by the loop over
candidate paths. -/
theorem c4_engine_fallback_pvp (d : Nat) (launch : List Nat → Bool)
    (paths : List (List Nat)) (h : ∀ p ∈ paths, launch p = false) :
    (initGame (pyS "pvc") d launch paths).1.gameMode = pyS "pvp" ∧
    (initGame (pyS "pvc") d launch paths).1.engine = false := by
  unfold initGame
  rw [if_pos rfl, setup_stockfish_all_fail launch paths _ h]
  exact ⟨rfl, rfl⟩

/-- Witness for C4: a concrete path list on which the launcher always
fails. -/
theorem c4_engine_fallback_pvp_witness :
    (initGame (pyS "pvc") 2 (fun _ => false) [pyS "stockfish"]).1.gameMode =
      pyS "pvp" ∧
    (initGame (pyS "pvc") 2 (fun _ => false) [pyS "stockfish"]).1.engine = false :=
  c4_engine_fallback_pvp 2 (fun _ => false) [pyS "stockfish"] (fun _ _ => rfl)

/-- Claim C7: show_result tests checkmate, stalemate, insufficient
material, fifty-move and threefold repetition in that priority order, and
the winner it declares on checkmate is the side opposite to the side to
move of the final board. -/
theorem c7_show_result_priority (t : TermOracle) (g : GameState) :
    (t.isCheckmate g.board = true →
      show_result t g = [ConsoleMsg.checkmateMsg (!boardTurn g.board)]) ∧
    (t.isCheckmate g.board = false → t.isStalemate g.board = true →
      show_result t g = [ConsoleMsg.stalemateMsg]) ∧
    (t.isCheckmate g.board = false → t.isStalemate g.board = false →
      t.isInsufficient g.board = true →
      show_result t g = [ConsoleMsg.insufficientMsg]) ∧
    (t.isCheckmate g.board = false → t.isStalemate g.board = false →
      t.isInsufficient g.board = false → t.isFiftyMoves g.board = true →
      show_result t g = [ConsoleMsg.fiftyMsg]) ∧
    (t.isCheckmate g.board = false → t.isStalemate g.board = false →
      t.isInsufficient g.board = false → t.isFiftyMoves g.board = false →
      t.isRepetition g.board = true →
      show_result t g = [ConsoleMsg.repetitionMsg]) ∧
    (t.isCheckmate g.board = false → t.isStalemate g.board = false →
      t.isInsufficient g.board = false → t.isFiftyMoves g.board = false →
      t.isRepetition g.board = false → show_result t g = []) := by
  unfold show_result boardTurn
  refine ⟨?_, ?_, ?_, ?_, ?_, ?_⟩ <;> intros <;> simp_all

/-- Witness for C7: the six priority cases exercised on concrete oracles;
with every condition reported, checkmate wins and the winner at the start
board (White to move) is Black. -/
theorem c7_show_result_priority_witness :
    show_result termAll g0pvp = [ConsoleMsg.checkmateMsg false] ∧
    show_result termNoCm g0pvp = [ConsoleMsg.stalemateMsg] ∧
    show_result termIns g0pvp = [ConsoleMsg.insufficientMsg] ∧
    show_result termFifty g0pvp = [ConsoleMsg.fiftyMsg] ∧
    show_result termRep g0pvp = [ConsoleMsg.repetitionMsg] ∧
    show_result termNone g0pvp = [] :=
  ⟨(c7_show_result_priority termAll g0pvp).1 rfl,
   (c7_show_result_priority termNoCm g0pvp).2.1 rfl rfl,
   (c7_show_result_priority termIns g0pvp).2.2.1 rfl rfl rfl,
   (c7_show_result_priority termFifty g0pvp).2.2.2.1 rfl rfl rfl rfl,
   (c7_show_result_priority termRep g0pvp).2.2.2.2.1 rfl rfl rfl rfl rfl,
   (c7_show_result_priority termNone g0pvp).2.2.2.2.2 rfl rfl rfl rfl rfl⟩

/-- Claim C8: the pieces-command handler accepts exactly the two recognised
modes, switching piece_mode and printing the switch notice; any other value
prints the invalid-mode notice and changes nothing; in both cases the
board, history, game mode, difficulty and engine handle are untouched. -/
theorem c8_set_piece_mode (g : GameState) (m : List Nat) :
    ((m = pyS "unicode" ∨ m = pyS "letters") →
      pieces_cmd g m = ({ g with pieceMode := m }, [ConsoleMsg.switchedModeMsg m])) ∧
    (m ≠ pyS "unicode" → m ≠ pyS "letters" →
      pieces_cmd g m = (g, [ConsoleMsg.invalidPieceModeMsg])) ∧
    (pieces_cmd g m).1.board = g.board ∧
    (pieces_cmd g m).1.moveHistory = g.moveHistory ∧
    (pieces_cmd g m).1.gameMode = g.gameMode ∧
    (pieces_cmd g m).1.difficulty = g.difficulty ∧
    (pieces_cmd g m).1.engine = g.engine := by
  refine ⟨?_, ?_, (pieces_cmd_frame g m).1, (pieces_cmd_frame g m).2.1,
    (pieces_cmd_frame g m).2.2.1, (pieces_cmd_frame g m).2.2.2.1,
    (pieces_cmd_frame g m).2.2.2.2⟩
  · intro h
    unfold pieces_cmd
    rw [if_pos h]
  · intro h1 h2
    unfold pieces_cmd
    rw [if_neg (not_or.mpr ⟨h1, h2⟩)]

/-- Witness for C8: letters is accepted, an unrecognised mode is rejected
with the invalid-mode notice. -/
theorem c8_set_piece_mode_witness :
    pieces_cmd g0pvp (pyS "letters") =
      ({ g0pvp with pieceMode := pyS "letters" },
        [ConsoleMsg.switchedModeMsg (pyS "letters")]) ∧
    pieces_cmd g0pvp (pyS "ascii") = (g0pvp, [ConsoleMsg.invalidPieceModeMsg]) :=
  ⟨(c8_set_piece_mode g0pvp (pyS "letters")).1 (Or.inr rfl),
   (c8_set_piece_mode g0pvp (pyS "ascii")).2.1 (by decide) (by decide)⟩

/-- Claim C9: whenever make_move returns False, both the board and the move
history are exactly as before the call, whatever the input text and
whatever the rules oracle answers: both failure branches return before any
mutation. -/
theorem c9_make_move_atomic (o : RulesOracle) (g : GameState) (s : List Nat)
    (h : (make_move o g s).2.1 = false) :
    (make_move o g s).1.board = g.board ∧
    (make_move o g s).1.moveHistory = g.moveHistory := by
  rw [make_move_rejected_frame o g s h]
  exact ⟨rfl, rfl⟩

/-- Witness for C9: the unparseable input e9 is rejected by the real oracle
and the start state is unchanged. -/
theorem c9_make_move_atomic_witness :
    (make_move realOracle g0pvp (pyS "e9")).2.1 = false ∧
    (make_move realOracle g0pvp (pyS "e9")).1.board = g0pvp.board ∧
    (make_move realOracle g0pvp (pyS "e9")).1.moveHistory = g0pvp.moveHistory :=
  ⟨rfl, c9_make_move_atomic realOracle g0pvp (pyS "e9") rfl⟩

/-- Claim C1: from a fresh session state, any sequence of inputs that
make_move accepts, followed by the same number of undo_move calls, returns
some final state equal to the initial one: the board stack is empty again
(the exact initial Board State) and the Move History Stack is empty, and
no undo call hits the IndexError path. -/
theorem c1_undo_restores_initial (o : RulesOracle) (texts : List (List Nat))
    (g g2 : GameState) (hb : g.board = []) (hh : g.moveHistory = [])
    (hrun : runMoves o g texts = (g2, true)) :
    undoN texts.length g2 = some g := by
  obtain ⟨ms, h1, h2, h3, h4, h5, h6, h7⟩ := runMoves_true o texts g g2 hrun
  rw [hb] at h1
  rw [hh] at h2
  rw [List.nil_append] at h1 h2
  rw [← h3, undoN_all ms g2 h1 h2, h4, h5, h6, h7]
  cases g
  simp_all

/-- Witness for C1: the accepted start-position input e4 followed by one
undo restores the fresh pvp state exactly. -/
theorem c1_undo_restores_initial_witness :
    runMoves realOracle g0pvp [pyS "e4"] = (gAfterE4, true) ∧
    undoN 1 gAfterE4 = some g0pvp :=
  ⟨by rfl, c1_undo_restores_initial realOracle [pyS "e4"] g0pvp gAfterE4
    rfl rfl (by rfl)⟩

/-- Claim C5: with the python-chess oracle, every rejected input produces
the invalid-notation message: parse_san only ever returns moves it found in
the legal move list, so the distinct illegal-move branch of make_move at
src/main.py lines 186-188 is unreachable, and the two failure modes the
spec distinguishes reach the caller as the same False return with the same
printed message. -/
theorem c5_rejections_collapse (g : GameState) (s : List Nat)
    (h : (make_move realOracle g s).2.1 = false) :
    (make_move realOracle g s).2.2 = [ConsoleMsg.invalidSanMsg] := by
  unfold make_move at *
  cases hp : realOracle.parseSan g.board s with
  | none => simp [hp]
  | some m =>
    have hm : m ∈ realOracle.legalMoves g.board := parse_san_mem hp
    rw [hp] at h
    simp [hm] at h

/-- Witness for C5: the input Ke2 from the start position is well-formed
SAN for an illegal move, yet it is rejected through the parse-failure path
with the invalid-notation message, not the illegal-move message. -/
theorem c5_rejections_collapse_witness :
    (make_move realOracle g0pvp (pyS "Ke2")).2.1 = false ∧
    (make_move realOracle g0pvp (pyS "Ke2")).2.2 = [ConsoleMsg.invalidSanMsg] :=
  ⟨by decide, c5_rejections_collapse g0pvp (pyS "Ke2") (by decide)⟩

/-- Claim C10: the loop dispatch compares the lowercased, stripped input
against the command keywords; the help and quit/exit commands return the
state untouched; any input recognised as the pieces command, whatever its
mode argument, leaves board and history unchanged; and for every command
input (help, quit, exit, undo, pieces) the handling of the input is
invariant under lowercasing it, since every branch reads only its
lowercased stripped form. -/
theorem c10_command_dispatch (o : RulesOracle) (g : GameState) (raw : List Nat) :
    (pyLower (pyStrip raw) = pyS "help" →
      stepInput o g raw =
        some (g, false, [ConsoleMsg.helpMsg, ConsoleMsg.pressEnterMsg])) ∧
    ((pyLower (pyStrip raw) = pyS "quit" ∨ pyLower (pyStrip raw) = pyS "exit") →
      stepInput o g raw = some (g, true, [])) ∧
    (pyStartsWith (pyS "pieces ") (pyLower (pyStrip raw)) = true →
      (stepInput o g raw).map (fun r => (r.1.board, r.1.moveHistory, r.2.1)) =
        some (g.board, g.moveHistory, false)) ∧
    ((pyLower (pyStrip raw) = pyS "help" ∨ pyLower (pyStrip raw) = pyS "quit" ∨
      pyLower (pyStrip raw) = pyS "exit" ∨ pyLower (pyStrip raw) = pyS "undo" ∨
      pyStartsWith (pyS "pieces ") (pyLower (pyStrip raw)) = true) →
      stepInput o g (pyLower raw) = stepInput o g raw) := by
  refine ⟨?_, ?_, ?_, stepInput_lower_eq o g raw⟩
  · intro h
    simp [stepInput, h]
  · intro h
    rcases h with h | h
    · simp [stepInput, h, pyS_help, pyS_quit]
    · simp [stepInput, h, pyS_help, pyS_exit]
  · intro h
    obtain ⟨m, rest, hsp, hstep⟩ := stepInput_pieces_shape o g raw h
    rw [hstep]
    simp [Option.map, (pieces_cmd_frame g m).1, (pieces_cmd_frame g m).2.1]

/-- Witness for C10: concrete mixed-case padded inputs for the help, quit,
pieces and undo commands. -/
theorem c10_command_dispatch_witness :
    stepInput realOracle g0pvp (pyS " HELP ") =
      some (g0pvp, false, [ConsoleMsg.helpMsg, ConsoleMsg.pressEnterMsg]) ∧
    stepInput realOracle g0pvp (pyS "Quit") = some (g0pvp, true, []) ∧
    (stepInput realOracle g0pvp (pyS "PIECES LETTERS")).map
      (fun r => (r.1.board, r.1.moveHistory, r.2.1)) =
      some (g0pvp.board, g0pvp.moveHistory, false) ∧
    stepInput realOracle g0pvp (pyLower (pyS "UNDO")) =
      stepInput realOracle g0pvp (pyS "UNDO") :=
  ⟨(c10_command_dispatch realOracle g0pvp (pyS " HELP ")).1 rfl,
   (c10_command_dispatch realOracle g0pvp (pyS "Quit")).2.1 (Or.inl rfl),
   (c10_command_dispatch realOracle g0pvp (pyS "PIECES LETTERS")).2.2.1 rfl,
   (c10_command_dispatch realOracle g0pvp (pyS "UNDO")).2.2.2
     (Or.inr (Or.inr (Or.inr (Or.inl rfl))))⟩

/-- Claim C2 (code bug): the move-history invariant fails on the engine
path.  From a pvc session with a live engine, the play loop reaches, by the
accepted human input e4 followed by the engine answer e7-e5, a state whose
board carries two applied moves while move_history carries one:
computer_move pushes the engine move onto the board without appending it to
move_history (src/main.py lines 199-201). -/
theorem c2_engine_history_desync :
    GameReachable realOracle gPvcStart gPvcBug ∧
    gPvcBug.board.length = 2 ∧ gPvcBug.moveHistory.length = 1 := by
  refine ⟨?_, rfl, rfl⟩
  have s1 : GameStep realOracle gPvcStart gPvc1 :=
    GameStep.human gPvcStart (pyS "e4") gPvc1 false [] (by decide) (by decide)
      (by decide)
  have s2 : GameStep realOracle gPvc1 gPvcBug :=
    GameStep.engine gPvc1 (some (some mvE5)) gPvcBug (some mvE5) [] (by decide)
      rfl rfl (by decide)
  exact GameReachable.tail (GameReachable.tail GameReachable.refl s1) s2

/-- Claim C6 (code bug): from the start position the input e4 is accepted
(side to move becomes Black, history length 1), but the second e4 is
rejected through the parse-failure branch with the invalid-notation
message: python-chess parse_san raises for well-formed SAN with no matching
legal move, so the illegal-move outcome the claim expects never fires. -/
theorem c6_double_e4_scenario :
    make_move realOracle g0pvp (pyS "e4") = (gAfterE4, true, []) ∧
    boardTurn gAfterE4.board = false ∧
    gAfterE4.moveHistory.length = 1 ∧
    make_move realOracle gAfterE4 (pyS "e4") =
      (gAfterE4, false, [ConsoleMsg.invalidSanMsg]) :=
  ⟨by decide, rfl, rfl, by decide⟩
